import Mathlib

/-!
Shallow embedding of the public simulation facade of the cascade library.

The repository snapshot contains the API test suite (`src/test/sim_api.cpp`)
and the internal per-step data header (`src/include/cascade/detail/sim_data.hpp`).
The implementation of the `sim` class itself is not part of the snapshot, so
the facade operations below are modelled from the specification, with their
observable behaviour (validation conditions and exact error messages) pinned
by the assertions of the API test suite.  Doubles are modelled exactly: a
finite value is a rational and the non-finite classes are explicit.
-/

namespace Cascade

/-- Model of an IEEE double for boundary validation purposes: a finite value
is carried exactly as a rational; infinities and NaN are explicit. -/
inductive FP where
  | fin (q : ℚ)
  | posInf
  | negInf
  | nan
deriving DecidableEq

/-- Counterpart of `std::isfinite`. -/
def FP.isFinite : FP → Bool
  | .fin _ => true
  | _ => false

/-- Counterpart of `std::isnan`. -/
def FP.isNan : FP → Bool
  | .nan => true
  | _ => false

/-- Counterpart of the C++ comparison `x < 0` (false on NaN). -/
def FP.isNeg : FP → Bool
  | .fin q => q < 0
  | .negInf => true
  | _ => false

/-- Counterpart of the C++ comparison `x > 0` (false on NaN). -/
def FP.isPos : FP → Bool
  | .fin q => 0 < q
  | .posInf => true
  | _ => false

/-- Rendering of a double in an error message, as `operator<<` would. -/
def FP.str : FP → String
  | .fin q => toString q
  | .posInf => "inf"
  | .negInf => "-inf"
  | .nan => "nan"

/-- Modelled from the spec: heyoka expressions are external collaborators;
for the validation of the dynamics only the variable name of a LHS, the free
variables of a RHS and the number of runtime parameters it references are
relevant, so an expression is either a named variable or an opaque
expression carrying its free-variable list and parameter count. -/
inductive HExpr where
  | var (name : String)
  | expr (fvars : List String) (nprs : ℕ)
deriving DecidableEq

/-- Free variables of an expression. -/
def HExpr.freeVars : HExpr → List String
  | .var n => [n]
  | .expr fv _ => fv

/-- Number of runtime parameters referenced by an expression
(one past the largest parameter index, 0 when none). -/
def HExpr.nparams : HExpr → ℕ
  | .var _ => 0
  | .expr _ k => k

/-- Rendering of an expression in an error message. -/
def HExpr.str : HExpr → String
  | .var n => n
  | .expr _ _ => "<expression>"

/-- The state variable names of the dynamics, in order. -/
def allowed_vars : List String := ["x", "y", "z", "vx", "vy", "vz"]

/-- Modelled from the spec: the default Keplerian dynamics
(`dynamics::kepler()`), six equations with no runtime parameters. -/
def kepler_dyn : List (HExpr × HExpr) :=
  [(.var "x", .expr ["vx"] 0), (.var "y", .expr ["vy"] 0), (.var "z", .expr ["vz"] 0),
   (.var "vx", .expr ["x", "y", "z"] 0), (.var "vy", .expr ["x", "y", "z"] 0),
   (.var "vz", .expr ["x", "y", "z"] 0)]

/-- Number of runtime parameters of a dynamics: the maximum over the RHS. -/
def dyn_npars (d : List (HExpr × HExpr)) : ℕ :=
  (d.map (fun pr => pr.2.nparams)).foldr max 0

/-- Formatting of a list of indices as in cascade error messages. -/
def fmtNatList (l : List ℕ) : String :=
  "[" ++ String.intercalate ", " (l.map toString) ++ "]"

/-- Formatting of a list of quoted variable names as in cascade error messages. -/
def fmtVarList (l : List String) : String :=
  "[" ++ String.intercalate ", " (l.map (fun v => "\"" ++ v ++ "\"")) ++ "]"

/-- Error message for a misshaped state vector (pinned by the API tests). -/
def bad_state_size_msg (n : ℕ) : String :=
  "The size of the state vector is " ++ toString n ++ ", which is not a multiple of 7"

/-- Error message for an invalid collisional timestep (pinned by the API tests). -/
def bad_ct_msg (c : FP) : String :=
  "The collisional timestep must be finite and positive, but it is " ++ c.str ++ " instead"

/-- Error message for an invalid minimum collisional radius (pinned by the API tests). -/
def bad_mcr_msg (c : FP) : String :=
  "The minimum collisional radius cannot be NaN or negative, but the invalid value "
    ++ c.str ++ " was provided"

/-- Error message for an invalid conjunction threshold (pinned by the API tests). -/
def bad_conj_thresh_msg (c : FP) : String :=
  "The conjunction threshold value " ++ c.str ++ " is invalid: it must be finite and non-negative"

/-- Error message for an invalid number of parallel collisional timesteps. -/
def bad_n_par_ct_msg : String :=
  "The number of collisional timesteps to be processed in parallel cannot be zero"

/-- Error message for a wrong number of dynamical equations. -/
def bad_dyn_count_msg (n : ℕ) : String :=
  "6 dynamical equations are expected, but " ++ toString n ++ " were provided instead"

/-- Error message for a wrong LHS in the dynamics. -/
def bad_lhs_msg (i : ℕ) (lhs : HExpr) : String :=
  "The LHS of the dynamics at index " ++ toString i ++ " must be a variable named \""
    ++ allowed_vars.getD i "" ++ "\", but instead it is the expression \"" ++ lhs.str ++ "\""

/-- Error message for invalid free variables in a RHS of the dynamics. -/
def bad_rhs_msg (nm : String) (bad : List String) : String :=
  "The RHS of the differential equation for the variable \"" ++ nm
    ++ "\" contains the invalid variables " ++ fmtVarList bad
    ++ " (the allowed variables are " ++ fmtVarList allowed_vars ++ ")"

/-- Error message for a parameter array passed with a parameterless dynamics. -/
def bad_pars_empty_msg : String :=
  "The input array of parameter values must be empty when the number of parameters "
    ++ "in the dynamics is zero"

/-- Error message for a parameter array of the wrong size. -/
def bad_pars_shape_msg (nparts npars sz : ℕ) : String :=
  "The input array of parameter values must have shape (" ++ toString nparts ++ ", "
    ++ toString npars ++ "), but instead its flattened size is " ++ toString sz

/-- Error message for an invalid particle-removal index vector. -/
def bad_remove_msg (l : List ℕ) : String :=
  "An invalid vector of indices was passed to the function for particle removal: "
    ++ fmtNatList l

/-- Modelled from the spec: validation of one differential equation of the
user-supplied dynamics (LHS must be the variable of the right name, the RHS
free variables must all be state variables). -/
def validate_eq (i : ℕ) (lhs rhs : HExpr) : Except String Unit :=
  if lhs = HExpr.var (allowed_vars.getD i "") then
    match rhs.freeVars.filter (fun v => decide (v ∉ allowed_vars)) with
    | [] => .ok ()
    | bad => .error (bad_rhs_msg (allowed_vars.getD i "") bad)
  else .error (bad_lhs_msg i lhs)

/-- Sequential validation of the equations of the dynamics, carrying the index. -/
def validate_eqs : ℕ → List (HExpr × HExpr) → Except String Unit
  | _, [] => .ok ()
  | i, (l, r) :: rest =>
    match validate_eq i l r with
    | .error e => .error e
    | .ok () => validate_eqs (i + 1) rest

/-- Modelled from the spec: validation of the full user-supplied dynamics
(exactly 6 equations, then per-equation checks). -/
def validate_dyn (d : List (HExpr × HExpr)) : Except String Unit :=
  if d.length ≠ 6 then .error (bad_dyn_count_msg d.length)
  else validate_eqs 0 d

/-- Validity of the collisional timestep: finite and strictly positive. -/
def ct_valid (c : FP) : Bool := c.isFinite && c.isPos

/-- Validity of the conjunction threshold: finite and non-negative. -/
def conj_thresh_valid (c : FP) : Bool := c.isFinite && !c.isNeg

/-- Validity of the minimum collisional radius: not NaN and not negative
(so +infinity is a valid value, as the API tests require). -/
def mcr_valid (c : FP) : Bool := !c.isNan && !c.isNeg

/-- The observable state of a `sim` object (the members behind the public
getters of the facade). -/
structure Sim where
  state : List FP
  pars : List FP
  npars : ℕ
  time : FP
  ct : FP
  tol : FP
  high_accuracy : Bool
  reentry_radius : Sum FP (List FP)
  exit_radius : FP
  n_par_ct : ℕ
  conj_thresh : FP
  min_coll_radius : FP
  coll_whitelist : List ℕ
  conj_whitelist : List ℕ
deriving DecidableEq

def get_state (s : Sim) : List FP := s.state

def get_pars (s : Sim) : List FP := s.pars

def get_nparts (s : Sim) : ℕ := s.state.length / 7

def get_npars (s : Sim) : ℕ := s.npars

def get_time (s : Sim) : FP := s.time

def get_ct (s : Sim) : FP := s.ct

def get_tol (s : Sim) : FP := s.tol

def get_high_accuracy (s : Sim) : Bool := s.high_accuracy

def get_reentry_radius (s : Sim) : Sum FP (List FP) := s.reentry_radius

def get_exit_radius (s : Sim) : FP := s.exit_radius

def get_n_par_ct (s : Sim) : ℕ := s.n_par_ct

def get_conj_thresh (s : Sim) : FP := s.conj_thresh

def get_min_coll_radius (s : Sim) : FP := s.min_coll_radius

def get_coll_whitelist (s : Sim) : List ℕ := s.coll_whitelist

def get_conj_whitelist (s : Sim) : List ℕ := s.conj_whitelist

/-- Modelled from the spec: construction (or replacement) of the flattened
parameter array.  An empty input array with a parametric dynamics is filled
with zeroes; otherwise the flattened size must match `(nparts, npars)`. -/
def make_pars (nparts npars : ℕ) (pars : List FP) : Except String (List FP) :=
  if npars = 0 then
    if pars = [] then .ok []
    else .error bad_pars_empty_msg
  else if pars = [] then .ok (List.replicate (nparts * npars) (FP.fin 0))
  else if pars.length = nparts * npars then .ok pars
  else .error (bad_pars_shape_msg nparts npars pars.length)

/-- Machine epsilon of an IEEE double, the default integrator tolerance. -/
def doubleEps : ℚ := mkRat 1 (2 ^ 52)

/-- Keyword arguments of the `sim` constructor, with their default values. -/
structure MkArgs where
  dyn : List (HExpr × HExpr) := kepler_dyn
  pars : List FP := []
  reentry_radius : Sum FP (List FP) := Sum.inl (FP.fin 0)
  exit_radius : FP := FP.fin 0
  tol : FP := FP.fin doubleEps
  high_accuracy : Bool := false
  n_par_ct : ℕ := 1
  conj_thresh : FP := FP.fin 0
  min_coll_radius : FP := FP.fin 0
  coll_whitelist : List ℕ := []
  conj_whitelist : List ℕ := []
deriving DecidableEq

/-- Validation of the reentry radius argument. -/
def validate_reentry (r : Sum FP (List FP)) : Except String Unit :=
  match r with
  | .inl c =>
    if c.isFinite && !c.isNeg then .ok ()
    else .error ("The reentry radius must be finite and non-negative, but it is "
      ++ c.str ++ " instead")
  | .inr l =>
    if l.length ≠ 3 then
      .error ("The reentry_radius argument must be either a scalar (for a spherical central "
        ++ "body) or a vector of 3 elements (for a triaxial ellipsoid), but instead it is a "
        ++ "vector of " ++ toString l.length ++ " element(s)")
    else if l.all (fun c => c.isFinite && c.isPos) then .ok ()
    else .error ("A non-finite or non-positive value was detected among the 3 semiaxes "
      ++ "of the central body: [" ++ String.intercalate ", " (l.map FP.str) ++ "]")

/-- Modelled from the spec: the `sim` constructor.  Runs the boundary
validations in sequence and assembles the observable state; the error string
plays the role of the `std::invalid_argument` exception. -/
def sim_mk (st : List FP) (c : FP) (a : MkArgs) : Except String Sim :=
  if st.length % 7 ≠ 0 then .error (bad_state_size_msg st.length)
  else if !ct_valid c then .error (bad_ct_msg c)
  else match validate_dyn a.dyn with
  | .error e => .error e
  | .ok () =>
  match validate_reentry a.reentry_radius with
  | .error e => .error e
  | .ok () =>
  if !(a.exit_radius.isFinite && !a.exit_radius.isNeg) then
    .error ("The exit radius must be finite and non-negative, but it is "
      ++ a.exit_radius.str ++ " instead")
  else if a.n_par_ct = 0 then .error bad_n_par_ct_msg
  else if !conj_thresh_valid a.conj_thresh then .error (bad_conj_thresh_msg a.conj_thresh)
  else if !mcr_valid a.min_coll_radius then .error (bad_mcr_msg a.min_coll_radius)
  else if !(a.tol.isFinite && a.tol.isPos) then
    .error ("The tolerance value " ++ a.tol.str ++ " is invalid: it must be finite and positive")
  else match make_pars (st.length / 7) (dyn_npars a.dyn) a.pars with
  | .error e => .error e
  | .ok p =>
    .ok { state := st, pars := p, npars := dyn_npars a.dyn, time := FP.fin 0, ct := c,
          tol := a.tol, high_accuracy := a.high_accuracy, reentry_radius := a.reentry_radius,
          exit_radius := a.exit_radius, n_par_ct := a.n_par_ct, conj_thresh := a.conj_thresh,
          min_coll_radius := a.min_coll_radius, coll_whitelist := a.coll_whitelist,
          conj_whitelist := a.conj_whitelist }

/-- A deliberately ill-formed fallback value, used only to totalise
`sim_mk_d` below; no successful construction can produce it. -/
def junkSim : Sim :=
  { state := [FP.nan], pars := [FP.nan], npars := 37, time := FP.nan, ct := FP.nan,
    tol := FP.nan, high_accuracy := true, reentry_radius := Sum.inl FP.nan,
    exit_radius := FP.nan, n_par_ct := 37, conj_thresh := FP.nan, min_coll_radius := FP.nan,
    coll_whitelist := [37], conj_whitelist := [37] }

/-- Total version of the constructor (the tests only use it on valid inputs). -/
def sim_mk_d (st : List FP) (c : FP) (a : MkArgs) : Sim :=
  match sim_mk st c a with
  | .ok s => s
  | .error _ => junkSim

/-- Modelled from the spec: the default constructor `sim()` builds an empty
simulation with a collisional timestep of 1 and all keyword defaults. -/
def sim_default : Sim := sim_mk_d [] (FP.fin 1) {}

/-- Modelled from the spec: `sim::set_ct()`. -/
def set_ct (s : Sim) (c : FP) : Sim × Option String :=
  if ct_valid c then ({ s with ct := c }, none) else (s, some (bad_ct_msg c))

/-- Modelled from the spec: `sim::set_n_par_ct()`. -/
def set_n_par_ct (s : Sim) (n : ℕ) : Sim × Option String :=
  if n = 0 then (s, some bad_n_par_ct_msg) else ({ s with n_par_ct := n }, none)

/-- Modelled from the spec: `sim::set_conj_thresh()`. -/
def set_conj_thresh (s : Sim) (c : FP) : Sim × Option String :=
  if conj_thresh_valid c then ({ s with conj_thresh := c }, none)
  else (s, some (bad_conj_thresh_msg c))

/-- Modelled from the spec: `sim::set_min_coll_radius()`.  The API tests pin
that NaN and negative values (including -infinity) are rejected while
+infinity is accepted. -/
def set_min_coll_radius (s : Sim) (c : FP) : Sim × Option String :=
  if mcr_valid c then ({ s with min_coll_radius := c }, none)
  else (s, some (bad_mcr_msg c))

/-- Modelled from the spec: `sim::set_new_state_pars()`.  Validates the new
state vector and parameter array, then commits both; on error the simulation
is untouched. -/
def set_new_state_pars (s : Sim) (st pars : List FP) : Sim × Option String :=
  if st.length % 7 ≠ 0 then (s, some (bad_state_size_msg st.length))
  else match make_pars (st.length / 7) s.npars pars with
  | .error e => (s, some e)
  | .ok p => ({ s with state := st, pars := p }, none)

/-- The 7-wide row of particle `i` inside a flattened array (width `w`). -/
def rowSlice (w : ℕ) (l : List FP) (i : ℕ) : List FP := (l.drop (w * i)).take w

/-- Unique-sorted view of an index set, as used in spec property 8. -/
def unique_sorted (l : List ℕ) : List ℕ := (l.mergeSort (fun a b => a ≤ b)).dedup

/-- Modelled from the spec: `sim::remove_particles()`.  Invalid indices are
rejected at the boundary; otherwise the rows of the surviving particles are
kept, in their original order, in both the state and the parameter array. -/
def remove_particles (s : Sim) (idxs : List ℕ) : Sim × Option String :=
  if idxs.all (fun i => i < get_nparts s) then
    ({ s with
        state := ((List.range (get_nparts s)).filter
          (fun i => decide (i ∉ idxs))).flatMap (rowSlice 7 s.state),
        pars := ((List.range (get_nparts s)).filter
          (fun i => decide (i ∉ idxs))).flatMap (rowSlice s.npars s.pars) }, none)
  else (s, some (bad_remove_msg (unique_sorted idxs)))

/-- Field declaration order of `sim::sim_data::np_data`
(src/include/cascade/detail/sim_data.hpp): the polynomial cache
`r_iso_cache` is declared before the working list `wlist`. -/
def np_data_field_order : List String :=
  ["pbuffers", "diff_input", "r_iso_cache", "wlist", "isol", "tmp_conj_vec", "local_conj_vec"]

/-- C++ destroys the non-static data members of a class in reverse
declaration order, so the destruction order of `np_data`'s members is the
reverse of the declaration order. -/
def np_data_destruction_order : List String := np_data_field_order.reverse

/-- A collision event: the particle indices and the collision time, as in
the entries of `coll_vec` (`std::tuple<size_type, size_type, double>`). -/
abbrev CollEv : Type := ℕ × ℕ × ℚ

/-- A conjunction event: particle indices, time and conjunction distance,
as in the `conjunction` struct. -/
abbrev ConjEv : Type := ℕ × ℕ × ℚ × ℚ

/-- Lexicographic lifting of an order: compare first components strictly,
fall through to `r` on equal first components. -/
def lexLift {α β : Type} [LT α] (r : β → β → Prop) (x y : α × β) : Prop :=
  x.1 < y.1 ∨ (x.1 = y.1 ∧ r x.2 y.2)

instance lexLiftDecidable {α β : Type} [LinearOrder α] (r : β → β → Prop) [DecidableRel r]
    (x y : α × β) : Decidable (lexLift r x y) := by
  unfold lexLift
  infer_instance

/-- Aggregation key order for collision events, per spec section 4.9:
sort by `(t, i, j)`. -/
def collP (a b : CollEv) : Prop :=
  lexLift (lexLift (fun m n : ℕ => m ≤ n)) (a.2.2, (a.1, a.2.1)) (b.2.2, (b.1, b.2.1))

instance collPDecidable (a b : CollEv) : Decidable (collP a b) := by
  unfold collP
  infer_instance

/-- Boolean form of the collision aggregation order, used for sorting. -/
def collLE (a b : CollEv) : Bool := decide (collP a b)

/-- Aggregation key order for conjunction events: sort by `(t, i, j)`, with
the distance as a final tie break so that the order is total. -/
def conjP (a b : ConjEv) : Prop :=
  lexLift (lexLift (lexLift (fun m n : ℚ => m ≤ n)))
    (a.2.2.1, (a.1, (a.2.1, a.2.2.2))) (b.2.2.1, (b.1, (b.2.1, b.2.2.2)))

instance conjPDecidable (a b : ConjEv) : Decidable (conjP a b) := by
  unfold conjP
  infer_instance

/-- Boolean form of the conjunction aggregation order, used for sorting. -/
def conjLE (a b : ConjEv) : Bool := decide (conjP a b)

/-- Modelled from the spec: the deterministic per-superstep kernels provided
by the external collaborators (per-particle propagation, per-pair narrow
phase event detection, time advancement); `step()` drives them. -/
structure StepKernel where
  prop : ℕ → List FP → List FP
  coll_ev : ℕ → ℕ → List CollEv
  conj_ev : ℕ → ℕ → List ConjEv
  adv : FP → FP

/-- Ordered candidate pairs `(i, j)` with `i < j` over `n` particles. -/
def pair_list (n : ℕ) : List (ℕ × ℕ) :=
  (List.range n).flatMap
    (fun i => ((List.range n).filter (fun j => decide (i < j))).map (fun j => (i, j)))

/-- Modelled from the spec: the state at the end of a superstep is the
concatenation of the per-particle propagation results. -/
def step_final_state (k : StepKernel) (s : Sim) : List FP :=
  ((List.range (get_nparts s)).map (fun i => k.prop i (rowSlice 7 s.state i))).flatten

/-- Modelled from the spec: the simulation time after a step. -/
def step_adv_time (k : StepKernel) (s : Sim) : FP := k.adv (get_time s)

/-- Modelled from the spec: the multiset of collision events produced by the
narrow phase in canonical pair order; worker interleaving yields an
arbitrary permutation of this list. -/
def step_coll_pool (k : StepKernel) (s : Sim) : List CollEv :=
  ((pair_list (get_nparts s)).map (fun p => k.coll_ev p.1 p.2)).flatten

/-- Modelled from the spec: the multiset of conjunction events, as
`step_coll_pool`. -/
def step_conj_pool (k : StepKernel) (s : Sim) : List ConjEv :=
  ((pair_list (get_nparts s)).map (fun p => k.conj_ev p.1 p.2)).flatten

/-- Modelled from the spec: the aggregator sorts the collected collision
events by `(t, i, j)` at superstep end. -/
def aggregate_coll (raw : List CollEv) : List CollEv := raw.mergeSort collLE

/-- Modelled from the spec: the aggregator sorts the collected conjunction
events at superstep end. -/
def aggregate_conj (raw : List ConjEv) : List ConjEv := raw.mergeSort conjLE

/-- Copy construction and copy assignment of a simulation copy every
observable member (the per-superstep scratch members of `sim_data` past the
`IMPORTANT` note are explicitly excluded from copying). -/
def copy_sim (s : Sim) : Sim :=
  { state := s.state, pars := s.pars, npars := s.npars, time := s.time, ct := s.ct,
    tol := s.tol, high_accuracy := s.high_accuracy, reentry_radius := s.reentry_radius,
    exit_radius := s.exit_radius, n_par_ct := s.n_par_ct, conj_thresh := s.conj_thresh,
    min_coll_radius := s.min_coll_radius, coll_whitelist := s.coll_whitelist,
    conj_whitelist := s.conj_whitelist }

/-- Claim-side well-formedness of a user-supplied dynamics, in the words of
the spec: exactly 6 differential equations whose LHS are, in order,
variables named exactly x, y, z, vx, vy, vz, and whose RHS contain no free
variables outside this set. -/
def goodDyn (d : List (HExpr × HExpr)) : Prop :=
  d.length = 6 ∧ ∀ j (h : j < d.length),
    (d.get ⟨j, h⟩).1 = HExpr.var (allowed_vars.getD j "") ∧
    ∀ v ∈ (d.get ⟨j, h⟩).2.freeVars, v ∈ allowed_vars

/-- The Keplerian dynamics with `par[1]` added to the first RHS, as in the
API tests (two runtime parameters). -/
def kepler_par2 : List (HExpr × HExpr) :=
  [(.var "x", .expr ["vx"] 2), (.var "y", .expr ["vy"] 0), (.var "z", .expr ["vz"] 0),
   (.var "vx", .expr ["x", "y", "z"] 0), (.var "vy", .expr ["x", "y", "z"] 0),
   (.var "vz", .expr ["x", "y", "z"] 0)]

/-- Lifting of a list of rationals to a list of finite doubles. -/
def stQ (l : List ℚ) : List FP := l.map FP.fin

/-- A concrete 2-particle state vector used by the witnesses. -/
def st14 : List FP := stQ [1, 2, 3, 4, 5, 6, 7, 8, 9, 10, 11, 12, 13, 14]

/-- A concrete 2-particle simulation used by the witnesses. -/
def simW14 : Sim := sim_mk_d st14 (FP.fin 1) {}

/-- A concrete 2-particle simulation with a 2-parameter dynamics. -/
def simW14p : Sim := sim_mk_d st14 (FP.fin 1) { dyn := kepler_par2, pars := stQ [3, 3, 4, 4] }

/-- A concrete step kernel used by the witnesses. -/
def witKernel : StepKernel :=
  { prop := fun i r => r ++ [FP.fin i],
    coll_ev := fun i j => [(i, j, (1 : ℚ)), (i, j, (0 : ℚ))],
    conj_ev := fun i j => [(i, j, (0 : ℚ), (1 : ℚ))],
    adv := fun t => t }

theorem lexLift_trans {α β : Type} [LinearOrder α] {r : β → β → Prop}
    (hr : ∀ x y z, r x y → r y z → r x z) :
    ∀ x y z : α × β, lexLift r x y → lexLift r y z → lexLift r x z := by
  intro x y z h1 h2
  rcases h1 with h1 | ⟨e1, h1⟩ <;> rcases h2 with h2 | ⟨e2, h2⟩
  · exact Or.inl (lt_trans h1 h2)
  · exact Or.inl (h1.trans_eq e2)
  · exact Or.inl (e1.trans_lt h2)
  · exact Or.inr ⟨e1.trans e2, hr _ _ _ h1 h2⟩

theorem lexLift_total {α β : Type} [LinearOrder α] {r : β → β → Prop}
    (hr : ∀ x y, r x y ∨ r y x) :
    ∀ x y : α × β, lexLift r x y ∨ lexLift r y x := by
  intro x y
  rcases lt_trichotomy x.1 y.1 with h | h | h
  · exact Or.inl (Or.inl h)
  · rcases hr x.2 y.2 with h2 | h2
    · exact Or.inl (Or.inr ⟨h, h2⟩)
    · exact Or.inr (Or.inr ⟨h.symm, h2⟩)
  · exact Or.inr (Or.inl h)

theorem lexLift_antisymm {α β : Type} [LinearOrder α] {r : β → β → Prop}
    (hr : ∀ x y, r x y → r y x → x = y) :
    ∀ x y : α × β, lexLift r x y → lexLift r y x → x = y := by
  intro x y h1 h2
  rcases h1 with h1 | ⟨e1, h1⟩ <;> rcases h2 with h2 | ⟨e2, h2⟩
  · exact absurd h2 (lt_asymm h1)
  · exact absurd (h1.trans_eq e2) (lt_irrefl _)
  · exact absurd (h2.trans_eq e1) (lt_irrefl _)
  · exact Prod.ext_iff.mpr ⟨e1, hr _ _ h1 h2⟩

theorem collP_trans (a b c : CollEv) : collP a b → collP b c → collP a c := by
  unfold collP
  exact @lexLift_trans ℚ (ℕ × ℕ) _ (lexLift (fun m n : ℕ => m ≤ n))
    (@lexLift_trans ℕ ℕ _ (fun m n : ℕ => m ≤ n) (fun x y z h1 h2 => Nat.le_trans h1 h2)) _ _ _

theorem collP_total (a b : CollEv) : collP a b ∨ collP b a := by
  unfold collP
  exact lexLift_total (lexLift_total (fun x y => le_total x y)) _ _

theorem collP_antisymm (a b : CollEv) : collP a b → collP b a → a = b := by
  unfold collP
  intro h1 h2
  have h := lexLift_antisymm (lexLift_antisymm (fun _ _ hx hy => le_antisymm hx hy)) _ _ h1 h2
  simp only [Prod.mk.injEq] at h
  obtain ⟨ht, hi, hj⟩ := h
  exact Prod.ext_iff.mpr ⟨hi, Prod.ext_iff.mpr ⟨hj, ht⟩⟩

theorem conjP_trans (a b c : ConjEv) : conjP a b → conjP b c → conjP a c := by
  unfold conjP
  exact @lexLift_trans ℚ (ℕ × ℕ × ℚ) _ (lexLift (lexLift (fun m n : ℚ => m ≤ n)))
    (@lexLift_trans ℕ (ℕ × ℚ) _ (lexLift (fun m n : ℚ => m ≤ n))
      (@lexLift_trans ℕ ℚ _ (fun m n : ℚ => m ≤ n) (fun x y z h1 h2 => le_trans h1 h2))) _ _ _

theorem conjP_total (a b : ConjEv) : conjP a b ∨ conjP b a := by
  unfold conjP
  exact lexLift_total (lexLift_total (lexLift_total (fun x y => le_total x y))) _ _

theorem conjP_antisymm (a b : ConjEv) : conjP a b → conjP b a → a = b := by
  unfold conjP
  intro h1 h2
  have h := lexLift_antisymm (lexLift_antisymm (lexLift_antisymm
    (fun _ _ hx hy => le_antisymm hx hy))) _ _ h1 h2
  simp only [Prod.mk.injEq] at h
  obtain ⟨ht, hi, hj, hd⟩ := h
  exact Prod.ext_iff.mpr ⟨hi, Prod.ext_iff.mpr ⟨hj, Prod.ext_iff.mpr ⟨ht, hd⟩⟩⟩

/-- Sorting with a transitive, total, antisymmetric comparator is a
canonical form: any two permuted inputs sort to the same list.  This is the
determinism core of the event aggregator. -/
theorem mergeSort_eq_of_perm {α : Type} {le : α → α → Bool}
    (htr : ∀ a b c : α, le a b = true → le b c = true → le a c = true)
    (hto : ∀ a b : α, (le a b || le b a) = true)
    (han : ∀ a b : α, le a b = true → le b a = true → a = b)
    {l1 l2 : List α} (h : l1.Perm l2) : l1.mergeSort le = l2.mergeSort le := by
  have hs1 := List.sorted_mergeSort htr hto l1
  have hs2 := List.sorted_mergeSort htr hto l2
  have hp : (l1.mergeSort le).Perm (l2.mergeSort le) :=
    (List.mergeSort_perm l1 le).trans (h.trans (List.mergeSort_perm l2 le).symm)
  exact @List.eq_of_perm_of_sorted α (fun a b => le a b = true) ⟨han⟩ _ _ hp hs1 hs2

theorem ct_valid_iff (c : FP) : ct_valid c = true ↔ (c.isFinite = true ∧ c.isPos = true) := by
  unfold ct_valid
  cases c <;> simp [FP.isFinite, FP.isPos]

theorem conj_thresh_valid_iff (c : FP) :
    conj_thresh_valid c = true ↔ (c.isFinite = true ∧ c.isNeg = false) := by
  unfold conj_thresh_valid
  cases c <;> simp [FP.isFinite, FP.isNeg]

theorem mcr_valid_iff (c : FP) :
    mcr_valid c = true ↔ (c.isNan = false ∧ c.isNeg = false) := by
  unfold mcr_valid
  cases c <;> simp [FP.isNan, FP.isNeg]

theorem sim_mk_bad_size (st : List FP) (c : FP) (a : MkArgs) (h : st.length % 7 ≠ 0) :
    sim_mk st c a = .error (bad_state_size_msg st.length) := by
  rw [sim_mk, if_pos h]

theorem sim_mk_default_ok (st : List FP) (h : st.length % 7 = 0) :
    sim_mk st (FP.fin 1) {} =
      .ok { state := st, pars := [], npars := 0, time := FP.fin 0, ct := FP.fin 1,
            tol := FP.fin doubleEps, high_accuracy := false,
            reentry_radius := Sum.inl (FP.fin 0), exit_radius := FP.fin 0, n_par_ct := 1,
            conj_thresh := FP.fin 0, min_coll_radius := FP.fin 0, coll_whitelist := [],
            conj_whitelist := [] } := by
  rw [sim_mk, if_neg (by simp [h]), if_neg (by decide)]
  rfl

theorem sim_mk_empty_ct_ok (c : FP) (h : ct_valid c = true) :
    sim_mk [] c {} =
      .ok { state := [], pars := [], npars := 0, time := FP.fin 0, ct := c,
            tol := FP.fin doubleEps, high_accuracy := false,
            reentry_radius := Sum.inl (FP.fin 0), exit_radius := FP.fin 0, n_par_ct := 1,
            conj_thresh := FP.fin 0, min_coll_radius := FP.fin 0, coll_whitelist := [],
            conj_whitelist := [] } := by
  rw [sim_mk, if_neg (by simp), if_neg (by simp [h])]
  rfl

theorem sim_mk_empty_ct_bad (c : FP) (h : ct_valid c = false) :
    sim_mk [] c {} = .error (bad_ct_msg c) := by
  rw [sim_mk, if_neg (by simp), if_pos (by simp [h])]

theorem make_pars_empty (n np : ℕ) :
    make_pars n np [] = .ok (if np = 0 then [] else List.replicate (n * np) (FP.fin 0)) := by
  unfold make_pars
  by_cases h : np = 0
  · rw [if_pos h, if_pos rfl, if_pos h]
  · rw [if_neg h, if_pos rfl, if_neg h]

theorem set_new_state_pars_empty_pars (s : Sim) (st : List FP) (h : st.length % 7 = 0) :
    set_new_state_pars s st [] =
      ({ s with state := st,
                pars := if s.npars = 0 then []
                        else List.replicate ((st.length / 7) * s.npars) (FP.fin 0) }, none) := by
  rw [set_new_state_pars, if_neg (by simp [h]), make_pars_empty]

/-- C9: a default-constructed sim is empty and fully configured with the
fixed defaults: empty state and parameters, zero particles, time 0, ct 1,
tolerance equal to the machine epsilon of a double, high accuracy off,
scalar reentry radius 0, exit radius 0, one parallel collisional timestep,
conjunction threshold 0, minimum collisional radius 0, empty whitelists. -/
theorem default_sim_defaults :
    get_state sim_default = [] ∧ get_pars sim_default = [] ∧ get_nparts sim_default = 0 ∧
    get_time sim_default = FP.fin 0 ∧ get_ct sim_default = FP.fin 1 ∧
    get_tol sim_default = FP.fin doubleEps ∧ get_high_accuracy sim_default = false ∧
    get_reentry_radius sim_default = Sum.inl (FP.fin 0) ∧
    get_exit_radius sim_default = FP.fin 0 ∧ get_n_par_ct sim_default = 1 ∧
    get_conj_thresh sim_default = FP.fin 0 ∧ get_min_coll_radius sim_default = FP.fin 0 ∧
    get_coll_whitelist sim_default = [] ∧ get_conj_whitelist sim_default = [] := by
  decide

/-- C3 counterexample: `set_min_coll_radius` accepts the non-finite value
+infinity and stores it, so the boundary layer does not reject every
non-finite configuration value. -/
theorem min_coll_radius_accepts_posinf :
    (set_min_coll_radius sim_default FP.posInf).2 = none ∧
    get_min_coll_radius (set_min_coll_radius sim_default FP.posInf).1 = FP.posInf := by
  decide

/-- C3 (amended): the boundary layer validates configuration values per
knob: `set_conj_thresh` accepts exactly the finite non-negative values
(rejecting NaN and both infinities), while `set_min_coll_radius` rejects
NaN and negative values (including -infinity) but accepts +infinity; an
accepted value is stored, and a rejected call reports InvalidArgument with
a message carrying the offending value. -/
theorem boundary_setter_validation (s : Sim) (c : FP) :
    (set_conj_thresh s c =
      if c.isFinite = true ∧ c.isNeg = false then ({ s with conj_thresh := c }, none)
      else (s, some (bad_conj_thresh_msg c))) ∧
    (set_min_coll_radius s c =
      if c.isNan = false ∧ c.isNeg = false then ({ s with min_coll_radius := c }, none)
      else (s, some (bad_mcr_msg c))) := by
  constructor
  · rw [set_conj_thresh]
    by_cases h : c.isFinite = true ∧ c.isNeg = false
    · rw [if_pos ((conj_thresh_valid_iff c).mpr h), if_pos h]
    · rw [if_neg (fun hh => h ((conj_thresh_valid_iff c).mp hh)), if_neg h]
  · rw [set_min_coll_radius]
    by_cases h : c.isNan = false ∧ c.isNeg = false
    · rw [if_pos ((mcr_valid_iff c).mpr h), if_pos h]
    · rw [if_neg (fun hh => h ((mcr_valid_iff c).mp hh)), if_neg h]

/-- C5: `set_ct` and sim construction accept exactly the finite strictly
positive collisional timesteps; a rejected call raises InvalidArgument with
a message stating the offending value, and an accepted call stores the
exact value, returned by `get_ct()`. -/
theorem ct_validation (s : Sim) (c : FP) :
    (set_ct s c =
      if c.isFinite = true ∧ c.isPos = true then ({ s with ct := c }, none)
      else (s, some (bad_ct_msg c))) ∧
    ((sim_mk [] c {}).map get_ct =
      if c.isFinite = true ∧ c.isPos = true then Except.ok c
      else Except.error (bad_ct_msg c)) := by
  constructor
  · rw [set_ct]
    by_cases h : c.isFinite = true ∧ c.isPos = true
    · rw [if_pos ((ct_valid_iff c).mpr h), if_pos h]
    · rw [if_neg (fun hh => h ((ct_valid_iff c).mp hh)), if_neg h]
  · by_cases h : c.isFinite = true ∧ c.isPos = true
    · rw [if_pos h, sim_mk_empty_ct_ok c ((ct_valid_iff c).mpr h)]
      rfl
    · have hv : ct_valid c = false := by
        rcases Bool.eq_false_or_eq_true (ct_valid c) with hv | hv
        · exact absurd ((ct_valid_iff c).mp hv) h
        · exact hv
      rw [if_neg h, sim_mk_empty_ct_bad c hv]
      rfl

/-- C4: a state vector whose flattened size is not a multiple of 7 is
rejected by both sim construction and `set_new_state_pars` with an
InvalidArgument message stating the offending size, while a well-shaped
state vector of size 7*n is accepted and yields `get_nparts() = n`. -/
theorem state_size_validation (s : Sim) (st : List FP) :
    ((sim_mk st (FP.fin 1) {}).map get_nparts =
      if st.length % 7 = 0 then Except.ok (st.length / 7)
      else Except.error (bad_state_size_msg st.length)) ∧
    ((set_new_state_pars s st []).2 =
      if st.length % 7 = 0 then none else some (bad_state_size_msg st.length)) ∧
    (get_nparts (set_new_state_pars s st []).1 =
      if st.length % 7 = 0 then st.length / 7 else get_nparts s) := by
  by_cases h : st.length % 7 = 0
  · rw [if_pos h, if_pos h, if_pos h]
    refine ⟨?_, ?_, ?_⟩
    · rw [sim_mk_default_ok st h]
      rfl
    · rw [set_new_state_pars_empty_pars s st h]
    · rw [set_new_state_pars_empty_pars s st h]
      rfl
  · rw [if_neg h, if_neg h, if_neg h]
    refine ⟨?_, ?_, ?_⟩
    · rw [sim_mk_bad_size st (FP.fin 1) {} h]
      rfl
    · rw [set_new_state_pars, if_pos h]
    · rw [set_new_state_pars, if_pos h]

/-- C7: in the narrow-phase scratch structure `np_data` the polynomial
cache `r_iso_cache` is declared strictly before the working list `wlist`,
so under the C++ rule that non-static members are destroyed in reverse
declaration order the working list (holding the borrowed `pwrap` handles)
is destroyed strictly before the cache on every exit path. -/
theorem np_data_wlist_destroyed_before_cache :
    "r_iso_cache" ∈ np_data_field_order ∧ "wlist" ∈ np_data_field_order ∧
    np_data_field_order.indexOf "r_iso_cache" < np_data_field_order.indexOf "wlist" ∧
    np_data_destruction_order.indexOf "wlist"
      < np_data_destruction_order.indexOf "r_iso_cache" := by
  decide

/-- C8: `set_new_state_pars` is atomic on error: a misshaped state vector,
or a non-empty parameter array whose flattened size does not match
`(nparts, npars)`, makes the call fail with InvalidArgument and leaves the
observable state (state, pars, nparts) exactly as before. -/
theorem set_new_state_pars_atomic (s : Sim) (st pars : List FP)
    (h : st.length % 7 ≠ 0 ∨ (pars ≠ [] ∧ pars.length ≠ (st.length / 7) * s.npars)) :
    (set_new_state_pars s st pars).1 = s ∧ (set_new_state_pars s st pars).2 ≠ none := by
  rw [set_new_state_pars]
  by_cases h7 : st.length % 7 = 0
  · rcases h with h | ⟨hne, hsz⟩
    · exact absurd h7 h
    · rw [if_neg (by simp [h7])]
      unfold make_pars
      by_cases h0 : s.npars = 0
      · rw [if_pos h0, if_neg hne]
        exact ⟨rfl, by simp⟩
      · rw [if_neg h0, if_neg hne, if_neg hsz]
        exact ⟨rfl, by simp⟩
  · rw [if_pos h7]
    exact ⟨rfl, by simp⟩

/-- C8 witness: a misshaped state vector is rejected and the default sim is
left untouched. -/
theorem set_new_state_pars_atomic_witness :
    (set_new_state_pars sim_default [FP.fin 0] []).1 = sim_default ∧
    (set_new_state_pars sim_default [FP.fin 0] []).2 ≠ none :=
  set_new_state_pars_atomic sim_default [FP.fin 0] [] (Or.inl (by decide))

/-- C10: with a parametric dynamics (`npars > 0`), passing a well-shaped
state vector and an empty parameter array to `set_new_state_pars` succeeds
and zero-fills the parameter array with shape `(nparts, npars)`. -/
theorem empty_pars_zero_fill (s : Sim) (st : List FP)
    (h1 : s.npars ≠ 0) (h2 : st.length % 7 = 0) :
    (set_new_state_pars s st []).2 = none ∧
    get_state (set_new_state_pars s st []).1 = st ∧
    get_pars (set_new_state_pars s st []).1 =
      List.replicate ((st.length / 7) * s.npars) (FP.fin 0) := by
  rw [set_new_state_pars_empty_pars s st h2]
  exact ⟨rfl, rfl, by rw [get_pars, if_neg h1]⟩

/-- C10 witness: on a 2-parameter dynamics, replacing the state with a
1-particle state and no parameters zero-fills a (1, 2) parameter array. -/
theorem empty_pars_zero_fill_witness :
    (set_new_state_pars simW14p (stQ [1, 1, 1, 1, 1, 1, 1]) []).2 = none ∧
    get_state (set_new_state_pars simW14p (stQ [1, 1, 1, 1, 1, 1, 1]) []).1
      = stQ [1, 1, 1, 1, 1, 1, 1] ∧
    get_pars (set_new_state_pars simW14p (stQ [1, 1, 1, 1, 1, 1, 1]) []).1 =
      List.replicate (((stQ [1, 1, 1, 1, 1, 1, 1]).length / 7) * simW14p.npars) (FP.fin 0) :=
  empty_pars_zero_fill simW14p (stQ [1, 1, 1, 1, 1, 1, 1]) (by decide) (by decide)

theorem make_pars_zero (np : ℕ) : make_pars 0 np [] = .ok [] := by
  rw [make_pars_empty]
  simp

theorem validate_eq_ok_iff (i : ℕ) (l r : HExpr) :
    validate_eq i l r = .ok () ↔
      (l = HExpr.var (allowed_vars.getD i "") ∧ ∀ v ∈ r.freeVars, v ∈ allowed_vars) := by
  unfold validate_eq
  by_cases hl : l = HExpr.var (allowed_vars.getD i "")
  · rw [if_pos hl]
    rcases hf : r.freeVars.filter (fun v => decide (v ∉ allowed_vars)) with _ | ⟨b, bs⟩
    · simp only [hf]
      constructor
      · intro _
        refine ⟨hl, fun v hv => ?_⟩
        have := List.filter_eq_nil_iff.mp hf v hv
        simpa using this
      · intro _
        trivial
    · simp only [hf]
      constructor
      · intro hcontra
        exact absurd hcontra (by simp)
      · rintro ⟨-, hall⟩
        exfalso
        have hb : b ∈ r.freeVars.filter (fun v => decide (v ∉ allowed_vars)) := by
          rw [hf]
          exact List.mem_cons_self _ _
        have hdec := List.of_mem_filter hb
        have hbmem : b ∈ r.freeVars := List.mem_of_mem_filter hb
        simp only [decide_eq_true_eq] at hdec
        exact hdec (hall b hbmem)
  · rw [if_neg hl]
    constructor
    · intro hcontra
      exact absurd hcontra (by simp)
    · rintro ⟨h, -⟩
      exact absurd h hl

theorem validate_eqs_ok_iff (d : List (HExpr × HExpr)) (i : ℕ) :
    validate_eqs i d = .ok () ↔
      ∀ j (h : j < d.length),
        (d.get ⟨j, h⟩).1 = HExpr.var (allowed_vars.getD (i + j) "") ∧
        ∀ v ∈ (d.get ⟨j, h⟩).2.freeVars, v ∈ allowed_vars := by
  induction d generalizing i with
  | nil => simp [validate_eqs]
  | cons p rest ih =>
    obtain ⟨l, r⟩ := p
    have step : validate_eqs i ((l, r) :: rest) = .ok () ↔
        (validate_eq i l r = .ok () ∧ validate_eqs (i + 1) rest = .ok ()) := by
      simp only [validate_eqs]
      rcases hv : validate_eq i l r with e | u
      · simp [hv]
      · cases u
        simp [hv]
    rw [step, validate_eq_ok_iff, ih (i + 1)]
    constructor
    · rintro ⟨⟨hl, hr⟩, htail⟩ j hj
      cases j with
      | zero =>
        refine ⟨?_, ?_⟩
        · simpa using hl
        · simpa using hr
      | succ j' =>
        have hj' : j' < rest.length := by simpa using Nat.lt_of_succ_lt_succ hj
        have hres := htail j' hj'
        have e : i + 1 + j' = i + (j' + 1) := by omega
        rw [e] at hres
        exact hres
    · intro hall
      refine ⟨?_, fun j hj => ?_⟩
      · have := hall 0 (by simp)
        simpa using this
      · have hres := hall (j + 1) (by simpa using Nat.succ_lt_succ hj)
        have e : i + (j + 1) = i + 1 + j := by omega
        rw [e] at hres
        exact hres

theorem sim_mk_empty_dyn (d : List (HExpr × HExpr)) :
    sim_mk [] (FP.fin 1) { dyn := d } =
      match validate_dyn d with
      | .error e => .error e
      | .ok _ => .ok { state := [], pars := [], npars := dyn_npars d, time := FP.fin 0,
                       ct := FP.fin 1, tol := FP.fin doubleEps, high_accuracy := false,
                       reentry_radius := Sum.inl (FP.fin 0), exit_radius := FP.fin 0,
                       n_par_ct := 1, conj_thresh := FP.fin 0, min_coll_radius := FP.fin 0,
                       coll_whitelist := [], conj_whitelist := [] } := by
  rw [sim_mk, if_neg (by simp), if_neg (by decide)]
  rcases hv : validate_dyn d with e | u
  · simp [hv]
  · cases u
    simp only [hv]
    rw [show validate_reentry (Sum.inl (FP.fin 0)) = .ok () from rfl]
    rw [if_neg (by decide), if_neg (by decide), if_neg (by decide), if_neg (by decide),
        if_neg (by decide)]
    rw [show (List.length ([] : List FP)) / 7 = 0 from rfl, make_pars_zero]

/-- C6: sim construction accepts a user-supplied dynamics exactly when it
consists of 6 differential equations whose LHS are, in order, variables
named exactly x, y, z, vx, vy, vz and whose RHS contain no free variables
outside this set; any violation (wrong count, wrong LHS, extra free
variable) is rejected with InvalidArgument. -/
theorem dyn_validation (d : List (HExpr × HExpr)) :
    (validate_dyn d = .ok () ↔ goodDyn d) ∧
    ((sim_mk [] (FP.fin 1) { dyn := d }).isOk = true ↔ goodDyn d) := by
  have hmain : validate_dyn d = .ok () ↔ goodDyn d := by
    unfold validate_dyn goodDyn
    by_cases h6 : d.length = 6
    · rw [if_neg (by omega), validate_eqs_ok_iff d 0]
      simp only [Nat.zero_add, h6, true_and]
    · rw [if_pos h6]
      constructor
      · intro hcontra
        exact absurd hcontra (by simp)
      · rintro ⟨h, -⟩
        exact absurd h h6
  refine ⟨hmain, ?_⟩
  rw [sim_mk_empty_dyn d]
  rcases hv : validate_dyn d with e | u
  · simp only [Except.isOk, Except.toBool]
    constructor
    · intro hcontra
      exact absurd hcontra (by simp)
    · intro hg
      exact absurd (hmain.mpr hg) (by simp [hv])
  · cases u
    simp only [Except.isOk, Except.toBool]
    exact ⟨fun _ => hmain.mp hv, fun _ => trivial⟩

theorem mem_unique_sorted (l : List ℕ) (a : ℕ) : a ∈ unique_sorted l ↔ a ∈ l := by
  unfold unique_sorted
  rw [List.mem_dedup, List.mem_mergeSort]

theorem nodup_unique_sorted (l : List ℕ) : (unique_sorted l).Nodup :=
  List.nodup_dedup _

theorem length_filter_split (l : List ℕ) (p : ℕ → Bool) :
    (l.filter p).length + (l.filter (fun a => !p a)).length = l.length := by
  induction l with
  | nil => rfl
  | cons a t ih =>
    rcases h : p a with _ | _ <;> simp [List.filter_cons, h] <;> omega

theorem length_filter_notMem (n : ℕ) (us : List ℕ) (hnd : us.Nodup)
    (hlt : ∀ i ∈ us, i < n) :
    ((List.range n).filter (fun i => decide (i ∉ us))).length = n - us.length := by
  have hperm : ((List.range n).filter (fun i => decide (i ∈ us))).Perm us := by
    rw [List.perm_ext_iff_of_nodup ((List.nodup_range n).filter _) hnd]
    intro a
    simp only [List.mem_filter, List.mem_range, decide_eq_true_eq]
    exact ⟨fun h => h.2, fun h => ⟨hlt a h, h⟩⟩
  have hlen : ((List.range n).filter (fun i => decide (i ∈ us))).length = us.length :=
    hperm.length_eq
  have hsplit := length_filter_split (List.range n) (fun i => decide (i ∈ us))
  have hnot : ((List.range n).filter (fun a => !(decide (a ∈ us)))) =
      ((List.range n).filter (fun i => decide (i ∉ us))) := by
    apply List.filter_congr
    intro a _
    simp [decide_not]
  rw [hnot, List.length_range] at hsplit
  omega

theorem flatMap_rowSlice_length (l : List FP) (n : ℕ) (hl : l.length = 7 * n)
    (keep : List ℕ) (hk : ∀ i ∈ keep, i < n) :
    (keep.flatMap (rowSlice 7 l)).length = 7 * keep.length := by
  induction keep with
  | nil => rfl
  | cons a t ih =>
    have ha : a < n := hk a (List.mem_cons_self a t)
    have ht : ∀ i ∈ t, i < n := fun i hi => hk i (List.mem_cons_of_mem a hi)
    have hrow : (rowSlice 7 l a).length = 7 := by
      unfold rowSlice
      rw [List.length_take, List.length_drop, hl]
      omega
    rw [List.flatMap_cons, List.length_append, ih ht, hrow, List.length_cons]
    omega

/-- C1: for a simulation and an index set whose elements are all valid
particle indices, `remove_particles` succeeds, the state becomes the
concatenation of the original 7-element rows whose index is not in
unique-sorted(S), the parameter array likewise keeps exactly the rows of
the surviving particles, and `get_nparts()` decreases by |unique(S)|, so
repeated indices count once. -/
theorem remove_particles_spec (s : Sim) (idxs : List ℕ)
    (hv : ∀ i ∈ idxs, i < get_nparts s)
    (hw : s.state.length = 7 * get_nparts s) :
    (remove_particles s idxs).2 = none ∧
    get_state (remove_particles s idxs).1 =
      ((List.range (get_nparts s)).filter
        (fun i => decide (i ∉ unique_sorted idxs))).flatMap (rowSlice 7 s.state) ∧
    get_pars (remove_particles s idxs).1 =
      ((List.range (get_nparts s)).filter
        (fun i => decide (i ∉ unique_sorted idxs))).flatMap (rowSlice s.npars s.pars) ∧
    get_nparts (remove_particles s idxs).1 = get_nparts s - (unique_sorted idxs).length := by
  have hall : idxs.all (fun i => decide (i < get_nparts s)) = true := by
    rw [List.all_eq_true]
    intro i hi
    simpa using hv i hi
  have hfilter : ((List.range (get_nparts s)).filter (fun i => decide (i ∉ idxs))) =
      ((List.range (get_nparts s)).filter (fun i => decide (i ∉ unique_sorted idxs))) := by
    apply List.filter_congr
    intro a _
    exact decide_eq_decide.mpr (not_congr (mem_unique_sorted idxs a).symm)
  rw [remove_particles, if_pos hall]
  refine ⟨rfl, ?_, ?_, ?_⟩
  · rw [get_state, hfilter]
  · rw [get_pars, hfilter]
  · have hklt : ∀ i ∈ (List.range (get_nparts s)).filter (fun i => decide (i ∉ idxs)),
        i < get_nparts s :=
      fun i hi => List.mem_range.mp (List.mem_of_mem_filter hi)
    have hlen := flatMap_rowSlice_length s.state (get_nparts s) hw _ hklt
    show (((List.range (get_nparts s)).filter (fun i => decide (i ∉ idxs))).flatMap
        (rowSlice 7 s.state)).length / 7 = get_nparts s - (unique_sorted idxs).length
    rw [hlen, Nat.mul_div_cancel_left _ (by omega : 0 < 7), hfilter]
    exact length_filter_notMem (get_nparts s) (unique_sorted idxs) (nodup_unique_sorted idxs)
      (fun i hi => hv i ((mem_unique_sorted idxs i).mp hi))

/-- C1 witness: removing `{1, 1}` from a concrete 2-particle simulation
keeps exactly the row of particle 0 and decreases the particle count by 1. -/
theorem remove_particles_spec_witness :
    (remove_particles simW14 [1, 1]).2 = none ∧
    get_state (remove_particles simW14 [1, 1]).1 =
      ((List.range (get_nparts simW14)).filter
        (fun i => decide (i ∉ unique_sorted [1, 1]))).flatMap (rowSlice 7 simW14.state) ∧
    get_pars (remove_particles simW14 [1, 1]).1 =
      ((List.range (get_nparts simW14)).filter
        (fun i => decide (i ∉ unique_sorted [1, 1]))).flatMap
          (rowSlice simW14.npars simW14.pars) ∧
    get_nparts (remove_particles simW14 [1, 1]).1 =
      get_nparts simW14 - (unique_sorted [1, 1]).length :=
  remove_particles_spec simW14 [1, 1] (by decide) (by decide)

theorem collLE_trans_b (a b c : CollEv) :
    collLE a b = true → collLE b c = true → collLE a c = true := by
  simp only [collLE, decide_eq_true_eq]
  exact collP_trans a b c

theorem collLE_total_b (a b : CollEv) : (collLE a b || collLE b a) = true := by
  simp only [collLE, Bool.or_eq_true, decide_eq_true_eq]
  exact collP_total a b

theorem collLE_antisymm_b (a b : CollEv) :
    collLE a b = true → collLE b a = true → a = b := by
  simp only [collLE, decide_eq_true_eq]
  exact collP_antisymm a b

theorem conjLE_trans_b (a b c : ConjEv) :
    conjLE a b = true → conjLE b c = true → conjLE a c = true := by
  simp only [conjLE, decide_eq_true_eq]
  exact conjP_trans a b c

theorem conjLE_total_b (a b : ConjEv) : (conjLE a b || conjLE b a) = true := by
  simp only [conjLE, Bool.or_eq_true, decide_eq_true_eq]
  exact conjP_total a b

theorem conjLE_antisymm_b (a b : ConjEv) :
    conjLE a b = true → conjLE b a = true → a = b := by
  simp only [conjLE, decide_eq_true_eq]
  exact conjP_antisymm a b

/-- C2: stepping a simulation and a copy of it with the same thread count
yields identical observables: the final state, the advanced time, and the
aggregated collision and conjunction event lists agree element for
element, for every worker interleaving of either run (interleavings are
modelled as arbitrary permutations of the canonical per-pair event pool,
which is identical for runs with equal state and configuration). -/
theorem step_copy_determinism (k : StepKernel) (s : Sim)
    (raw1 raw2 : List CollEv) (craw1 craw2 : List ConjEv)
    (h1 : raw1.Perm (step_coll_pool k s))
    (h2 : raw2.Perm (step_coll_pool k (copy_sim s)))
    (h3 : craw1.Perm (step_conj_pool k s))
    (h4 : craw2.Perm (step_conj_pool k (copy_sim s))) :
    step_final_state k (copy_sim s) = step_final_state k s ∧
    step_adv_time k (copy_sim s) = step_adv_time k s ∧
    aggregate_coll raw2 = aggregate_coll raw1 ∧
    aggregate_conj craw2 = aggregate_conj craw1 := by
  have hcopy : copy_sim s = s := rfl
  refine ⟨rfl, rfl, ?_, ?_⟩
  · unfold aggregate_coll
    apply mergeSort_eq_of_perm collLE_trans_b collLE_total_b collLE_antisymm_b
    rw [hcopy] at h2
    exact h2.trans h1.symm
  · unfold aggregate_conj
    apply mergeSort_eq_of_perm conjLE_trans_b conjLE_total_b conjLE_antisymm_b
    rw [hcopy] at h4
    exact h4.trans h3.symm

/-- C2 witness: a concrete 2-particle simulation, its copy, and two
different interleavings of the two collision events aggregate to the same
sorted output. -/
theorem step_copy_determinism_witness :
    step_final_state witKernel (copy_sim simW14) = step_final_state witKernel simW14 ∧
    step_adv_time witKernel (copy_sim simW14) = step_adv_time witKernel simW14 ∧
    aggregate_coll [(0, 1, (0 : ℚ)), (0, 1, (1 : ℚ))]
      = aggregate_coll [(0, 1, (1 : ℚ)), (0, 1, (0 : ℚ))] ∧
    aggregate_conj [(0, 1, (0 : ℚ), (1 : ℚ))] = aggregate_conj [(0, 1, (0 : ℚ), (1 : ℚ))] :=
  step_copy_determinism witKernel simW14
    [(0, 1, (1 : ℚ)), (0, 1, (0 : ℚ))] [(0, 1, (0 : ℚ)), (0, 1, (1 : ℚ))]
    [(0, 1, (0 : ℚ), (1 : ℚ))] [(0, 1, (0 : ℚ), (1 : ℚ))]
    (by decide) (by decide) (by decide) (by decide)

end Cascade
